import Mathlib

/-!
Shallow embedding of `python/ray/air/result.py` (the `Result` dataclass:
`Result.from_path`, `Result.get_best_checkpoint`, `Result.config`) together
with the storage artifacts it reads.  File contents are modelled at the level
the code consumes them: the primary log (`result.json`) as its parsed,
`/`-flattened records, the fallback log (`progress.csv`) as a header row plus
string cells (type inference is modelled explicitly), the directory listing
as a list of entries, the pickled error artifact as an optional record.
Machine floats do not occur: numeric metric values are modelled as integers.
-/

namespace RayResult

/-- A scalar cell value as it appears in a pandas dataframe cell or a metrics
mapping: a number, a string, a boolean, or the NaN/null fill that
`pd.json_normalize` inserts for keys missing from a record. -/
inductive Value where
  | num (n : Int)
  | str (s : String)
  | bool (b : Bool)
  | null
  deriving DecidableEq, Repr

/-- Python `dict.get`: first binding of a key in an insertion-ordered
association list. -/
def lookup_key (m : List (String × Value)) (k : String) : Option Value :=
  (m.find? (fun p => p.1 == k)).map Prod.snd

/-- Code-point lexicographic comparison of character lists: the order Python
uses to sort `str` values (`sorted(...)` in `Result.from_path`). -/
def chars_le : List Char → List Char → Bool
  | [], _ => true
  | _ :: _, [] => false
  | a :: as, b :: bs =>
    if a.val.toNat < b.val.toNat then true
    else if b.val.toNat < a.val.toNat then false
    else chars_le as bs

/-- Lexicographic `≤` on strings by code points (Python string order). -/
def str_le (s t : String) : Bool := chars_le s.data t.data

/-- The ordering relation used by the checkpoint-directory sort. -/
def StrLe (s t : String) : Prop := str_le s t = true

instance : DecidableRel StrLe := fun s t =>
  inferInstanceAs (Decidable (str_le s t = true))

/-- Python `str.startswith`, on the underlying character lists. -/
def starts_chars : List Char → List Char → Bool
  | [], _ => true
  | _ :: _, [] => false
  | p :: ps, c :: cs => p == c && starts_chars ps cs

/-- `item.base_name.startswith("checkpoint_")` from `Result.from_path`. -/
def starts_with_checkpoint (s : String) : Bool :=
  starts_chars "checkpoint_".data s.data

/-- Numeric value of a decimal digit character, if it is one. -/
def digit_val (c : Char) : Option Nat :=
  if 48 ≤ c.val.toNat ∧ c.val.toNat ≤ 57 then some (c.val.toNat - 48) else none

/-- Accumulating decimal parser over a character list; fails on the first
non-digit. -/
def parse_digits : List Char → Nat → Option Nat
  | [], acc => some acc
  | c :: cs, acc =>
    match digit_val c with
    | some d => parse_digits cs (acc * 10 + d)
    | none => none

/-- Decimal integer parser for a whole string (optional leading minus sign),
modelling which csv cells pandas' reader treats as numeric. -/
def parse_int_string (s : String) : Option Int :=
  match s.data with
  | [] => none
  | '-' :: rest =>
    if rest.isEmpty then none
    else (parse_digits rest 0).map (fun n => -(n : Int))
  | cs => (parse_digits cs 0).map (fun n => (n : Int))

/-- Type inference performed by `pd.read_csv` on a text cell: empty cell is
NaN, a numeric-parseable cell becomes a number, anything else stays text. -/
def infer_value (s : String) : Value :=
  if s = "" then Value.null
  else
    match parse_int_string s with
    | some n => Value.num n
    | none => Value.str s

/-- A pandas dataframe as the code observes it: a column list and rows that
carry one (possibly null) cell per column, in column order. -/
structure DataFrame where
  columns : List String
  rows : List (List (String × Value))
  deriving DecidableEq, Repr

/-- Append a key to a column accumulator unless already present (pandas
column union keeps first-appearance order). -/
def insert_key (acc : List String) (k : String) : List String :=
  if acc.contains k then acc else acc ++ [k]

/-- Union of the keys of all records in first-appearance order: the column
set `pd.json_normalize` produces. -/
def union_keys (records : List (List (String × Value))) : List String :=
  records.foldl (fun acc r => (r.map Prod.fst).foldl insert_key acc) []

/-- `pd.json_normalize(json_list, sep="/")` on the already-flattened records
read from `result.json`: one row per record, missing keys filled with NaN. -/
def json_normalize (records : List (List (String × Value))) : DataFrame :=
  ⟨union_keys records,
   records.map (fun r =>
     (union_keys records).map (fun c => (c, (lookup_key r c).getD Value.null)))⟩

/-- `pd.read_csv` on the fallback `progress.csv`: the header row names the
columns, each data row is type-inferred cell by cell. -/
def read_csv (header : List String) (rows : List (List String)) : DataFrame :=
  ⟨header, rows.map (fun cells => (header.zip cells).map (fun p => (p.1, infer_value p.2)))⟩

/-- `metrics_df.empty`: a dataframe is empty when either axis has length 0. -/
def df_is_empty (df : DataFrame) : Bool := df.rows.isEmpty || df.columns.isEmpty

/-- `metrics_df.iloc[-1].to_dict() if not metrics_df.empty else {}`. -/
def latest_row (df : DataFrame) : List (String × Value) :=
  if df_is_empty df then [] else (df.rows.getLast?).getD []

/-- One entry of `fs.get_file_info(pyarrow.fs.FileSelector(fs_path))`. -/
structure FileInfo where
  base_name : String
  is_dir : Bool
  deriving DecidableEq, Repr

/-- Modelled from the spec: the terminal-error record deserialized from the
fixed-name error artifact; the source pickles an arbitrary exception object,
the spec replaces it with a structured envelope \x7bkind, message, trace\x7d. -/
structure ErrorRecord where
  kind : String
  message : String
  trace : Option String
  deriving DecidableEq, Repr

/-- The error artifact file as found on storage: either it deserializes to a
record, or reading/unpickling it raises (which `from_path` propagates). -/
inductive ErrorArtifact where
  | readable (e : ErrorRecord)
  | corrupt
  deriving DecidableEq, Repr

/-- A trial root directory as `Result.from_path` observes it through the
filesystem: existence, the two candidate metrics logs (present iff the file
exists; the primary as parsed flattened records, the fallback as header and
raw text cells), the directory listing, and the optional error artifact. -/
structure TrialDir where
  trial_dir_exists : Bool
  fs_path : String
  result_json : Option (List (List (String × Value)))
  progress_csv : Option (List String × List (List String))
  entries : List FileInfo
  error_artifact : Option ErrorArtifact
  deriving DecidableEq, Repr

/-- The assembled `Result` object (checkpoints are carried by their storage
path, the opaque `Checkpoint(path, fs)` reference of the source). -/
structure RunResult where
  metrics : Option (List (String × Value))
  checkpoint : Option String
  error : Option ErrorRecord
  metrics_dataframe : Option DataFrame
  best_checkpoints : Option (List (String × List (String × Value)))
  deriving DecidableEq, Repr

/-- The fatal failures `Result.from_path` can raise: the two explicit
`RuntimeError`s, the pandas `KeyError` on a missing correlation column, and
a failing read of the error artifact. -/
inductive RestoreError where
  | invalidTrialPath
  | missingMetricsLog
  | keyError
  | errorArtifactUnreadable
  deriving DecidableEq, Repr

/-- `ray.train.constants.CHECKPOINT_DIR_NAME`, the correlation key. -/
def CHECKPOINT_DIR_NAME : String := "checkpoint_dir_name"

/-- `os.path.join` for the storage paths involved. -/
def join_path (a b : String) : String := a ++ "/" ++ b

/-- The checkpoint-directory scan of `Result.from_path`: keep the names of
directory entries starting with `"checkpoint_"`, sorted (Python `sorted` on
strings, i.e. code-point lexicographic). -/
def scan_checkpoint_dirs (entries : List FileInfo) : List String :=
  List.insertionSort StrLe
    ((entries.filter (fun e => e.is_dir && starts_with_checkpoint e.base_name)).map
      (fun e => e.base_name))

/-- One cell of the correlation column compared against a directory name:
`metrics_df[CHECKPOINT_DIR_NAME] == checkpoint_dir` (NaN compares unequal). -/
def row_matches (row : List (String × Value)) (name : String) : Bool :=
  decide ((lookup_key row CHECKPOINT_DIR_NAME).getD Value.null = Value.str name)

/-- `metrics_df[metrics_df[CHECKPOINT_DIR_NAME] == checkpoint_dir]`. -/
def matching_rows (df : DataFrame) (name : String) : List (List (String × Value)) :=
  df.rows.filter (fun row => row_matches row name)

/-- The snapshot attached to one checkpoint: the last matching row's dict, or
the empty dict when no row matches (the logged, non-fatal default). -/
def snapshot_for (df : DataFrame) (name : String) : List (String × Value) :=
  ((matching_rows df name).getLast?).getD []

/-- The metrics-log reading step of `Result.from_path`: `result.json` if that
file exists, else `progress.csv`, else the `RuntimeError` for a missing log. -/
def read_metrics_df (d : TrialDir) : Except RestoreError DataFrame :=
  match d.result_json with
  | some records => .ok (json_normalize records)
  | none =>
    match d.progress_csv with
    | some pc => .ok (read_csv pc.1 pc.2)
    | none => .error RestoreError.missingMetricsLog

/-- The error-artifact step of `Result.from_path`: absent file means no
error; a present file is unpickled, and a failing read propagates. -/
def load_error_artifact (d : TrialDir) : Except RestoreError (Option ErrorRecord) :=
  match d.error_artifact with
  | none => .ok none
  | some (.readable e) => .ok (some e)
  | some .corrupt => .error RestoreError.errorArtifactUnreadable

/-- `Result.from_path`: validate the trial root, read the metrics log, scan
and correlate checkpoints (raising the pandas `KeyError` when checkpoints
exist but the correlation column does not), load the error artifact, and
assemble the `Result`. -/
def from_path (d : TrialDir) : Except RestoreError RunResult :=
  if d.trial_dir_exists = false then .error RestoreError.invalidTrialPath
  else
    match read_metrics_df d with
    | .error e => .error e
    | .ok df =>
      match scan_checkpoint_dirs d.entries with
      | [] =>
        match load_error_artifact d with
        | .error e => .error e
        | .ok err =>
          .ok ⟨some (latest_row df), none, err, some df, none⟩
      | n :: ns =>
        if df.columns.contains CHECKPOINT_DIR_NAME = false then .error RestoreError.keyError
        else
          match load_error_artifact d with
          | .error e => .error e
          | .ok err =>
            .ok ⟨some (latest_row df),
                 ((n :: ns).map (fun nm => join_path d.fs_path nm)).getLast?, err, some df,
                 some (((n :: ns).map (fun nm => join_path d.fs_path nm)).zip
                       ((n :: ns).map (fun nm => snapshot_for df nm)))⟩

/-- The `Result.config` property: `None` when the metrics mapping is falsy
(`None` or empty), else `self.metrics.get("config", None)`. -/
def config (r : RunResult) : Option Value :=
  match r.metrics with
  | none => none
  | some m => if m.isEmpty then none else lookup_key m "config"

/-- Python rich comparison `<` on the homogeneous cell values the selection
theorems exercise (a heterogeneous comparison raises `TypeError` in the
source and is outside every theorem's hypotheses). -/
def value_lt : Value → Value → Bool
  | .num a, .num b => decide (a < b)
  | .str a, .str b => decide (StrLe a b ∧ a ≠ b)
  | _, _ => false

/-- CPython `max`/`min` with a key function: fold over the remaining
elements, replacing the current best exactly when `keep_new` accepts the
candidate (strictly better), so ties keep the earliest element. -/
def py_extremal (keep_new : Value → Value → Bool) (key : α → Value) : α → List α → α
  | best, [] => best
  | best, x :: xs => py_extremal keep_new key (cond (keep_new (key best) (key x)) x best) xs

/-- The failures `Result.get_best_checkpoint` can raise: the two explicit
errors, the `UnknownMetric` error carrying the metric and the keys of the
current metrics snapshot, and the attribute error the source would hit
formatting that message when `self.metrics` is `None`. -/
inductive SelectError where
  | noCheckpoint
  | invalidMode (mode : String)
  | unknownMetric (metric : String) (available : List String)
  | metricsAttributeError
  deriving DecidableEq, Repr

/-- `Result.get_best_checkpoint(metric, mode)`, returning the chosen
checkpoint's location. -/
def get_best_checkpoint (r : RunResult) (metric mode : String) : Except SelectError String :=
  match r.best_checkpoints with
  | none => .error SelectError.noCheckpoint
  | some bcs =>
    match bcs with
    | [] => .error SelectError.noCheckpoint
    | b :: bs =>
      if mode = "max" ∨ mode = "min" then
        match (b :: bs).filter (fun ci => (lookup_key ci.2 metric).isSome) with
        | [] =>
          match r.metrics with
          | none => .error SelectError.metricsAttributeError
          | some m => .error (SelectError.unknownMetric metric (m.map Prod.fst))
        | v :: vs =>
          if mode = "max" then
            .ok (py_extremal (fun cur new => value_lt cur new)
                  (fun ci => (lookup_key ci.2 metric).getD Value.null) v vs).1
          else
            .ok (py_extremal (fun cur new => value_lt new cur)
                  (fun ci => (lookup_key ci.2 metric).getD Value.null) v vs).1
      else .error (SelectError.invalidMode mode)

deriving instance DecidableEq for Except

/-- The ten decimal digit characters (junk for anything above 9). -/
def digit_char (n : Nat) : Char :=
  match n with
  | 0 => '0' | 1 => '1' | 2 => '2' | 3 => '3' | 4 => '4'
  | 5 => '5' | 6 => '6' | 7 => '7' | 8 => '8' | 9 => '9'
  | _ => '*'

/-- Fixed-width decimal rendering, most significant digit first: `w` digit
characters for `n` (the zero-padded rendering when `n < 10 ^ w`). -/
def pad_digits : Nat → Nat → List Char
  | 0, _ => []
  | w + 1, n => digit_char (n / 10 ^ w) :: pad_digits w (n % 10 ^ w)

/-- Modelled from the spec: the checkpoint-directory naming convention of the
writer (not part of the sources) — the fixed name stem followed by a
fixed-width, zero-padded numeric index, as in `checkpoint_000002`. -/
def ckpt_dir_name (i : Nat) : String :=
  "checkpoint_" ++ String.mk (pad_digits 6 i)

/-- Modelled from the spec: how the (external) writer renders one metrics
value as a fallback-log text cell. -/
def encode_cell : Value → String
  | .num n => toString n
  | .str s => s
  | .bool b => if b then "True" else "False"
  | .null => ""

/-- Modelled from the spec: the fallback tabular log encoding of a metrics
history — one text cell per header column per row. -/
def encode_csv_rows (header : List String) (rows : List (List (String × Value))) :
    List (List String) :=
  rows.map (fun r => header.map (fun c => encode_cell ((lookup_key r c).getD Value.null)))

/-- A trial root holding only the primary newline-delimited log for the
given metrics rows (no checkpoints, no error artifact). -/
def primary_only_dir (p : String) (rows : List (List (String × Value))) : TrialDir :=
  ⟨true, p, some rows, none, [], none⟩

/-- A trial root holding only the fallback tabular log encoding the same
metrics rows (no checkpoints, no error artifact). -/
def fallback_only_dir (p : String) (header : List String)
    (rows : List (List (String × Value))) : TrialDir :=
  ⟨true, p, none, some (header, encode_csv_rows header rows), [], none⟩

/-- A trial root with a readable primary log whose rows never carry the
correlation key, and one conventionally-named checkpoint directory. -/
def trial_missing_corr_key : TrialDir :=
  ⟨true, "/trial", some [[("a", Value.num 1)]], none, [⟨"checkpoint_000000", true⟩], none⟩

/-- A trial root with a readable primary log and zero checkpoint
directories. -/
def trial_no_ckpt : TrialDir :=
  ⟨true, "/trial", some [[("a", Value.num 1)]], none, [], none⟩

/-- One metrics row whose only value is the numeric-looking string `"7"`. -/
def rows_str7 : List (List (String × Value)) := [[("a", Value.str "7")]]

/-- Three concrete checkpoint records with a tie on the maximal value of
metric `a` (the two last records both score 5). -/
def witness_records : List (String × List (String × Value)) :=
  [("p1", [("a", Value.num 2)]), ("p2", [("a", Value.num 5)]), ("p3", [("a", Value.num 5)])]

/-- A concrete assembled result holding `witness_records`. -/
def witness_result : RunResult :=
  ⟨some [("a", Value.num 1)], some "/t/p3", none, none, some witness_records⟩

/-- A metrics row correlated to `checkpoint_000001`, reported earlier. -/
def corr_row_early : List (String × Value) :=
  [("checkpoint_dir_name", Value.str "checkpoint_000001"), ("a", Value.num 1)]

/-- A metrics row correlated to `checkpoint_000001`, reported later. -/
def corr_row_late : List (String × Value) :=
  [("checkpoint_dir_name", Value.str "checkpoint_000001"), ("a", Value.num 2)]

/-- A trial root whose history reports twice at the same checkpoint. -/
def trial_corr : TrialDir :=
  ⟨true, "/t", some [corr_row_early, corr_row_late], none, [⟨"checkpoint_000001", true⟩], none⟩

/-- The dataframe restored from `trial_corr`. -/
def trial_corr_df : DataFrame := json_normalize [corr_row_early, corr_row_late]

/-- The result restored from `trial_corr`: the record carries the later row. -/
def trial_corr_result : RunResult :=
  ⟨some corr_row_late, some "/t/checkpoint_000001", none, some trial_corr_df,
   some [("/t/checkpoint_000001", corr_row_late)]⟩

/-- A trial root with two conventionally-named checkpoint directories listed
out of order, whose single metrics row correlates to the first checkpoint. -/
def trial_two : TrialDir :=
  ⟨true, "/t", some [corr_row_early], none,
   [⟨"checkpoint_000002", true⟩, ⟨"checkpoint_000001", true⟩], none⟩

/-- The result restored from `trial_two`: two records in ascending index
order, the uncorrelated one carrying an empty snapshot. -/
def trial_two_result : RunResult :=
  ⟨some corr_row_early, some "/t/checkpoint_000002", none, some (json_normalize [corr_row_early]),
   some [("/t/checkpoint_000001", corr_row_early), ("/t/checkpoint_000002", [])]⟩

/-- The numeric value of metric `a` in a checkpoint record's snapshot. -/
def witness_gain (p : String × List (String × Value)) : Int :=
  match lookup_key p.2 "a" with
  | some (Value.num n) => n
  | _ => 0

/-- The code-point order on character lists is total. -/
theorem chars_le_total : ∀ a b : List Char, chars_le a b = true ∨ chars_le b a = true := by
  intro a
  induction a with
  | nil => intro b; left; rfl
  | cons x xs ih =>
    intro b
    cases b with
    | nil => right; rfl
    | cons y ys =>
      simp only [chars_le]
      rcases Nat.lt_trichotomy x.val.toNat y.val.toNat with h | h | h
      · left; simp [h]
      · have h1 : ¬ x.val.toNat < y.val.toNat := by omega
        have h2 : ¬ y.val.toNat < x.val.toNat := by omega
        simpa [h1, h2] using ih ys
      · right; simp [h]

/-- The code-point order on character lists is transitive. -/
theorem chars_le_trans :
    ∀ a b c : List Char, chars_le a b = true → chars_le b c = true → chars_le a c = true := by
  intro a
  induction a with
  | nil => intro b c _ _; rfl
  | cons x xs ih =>
    intro b c hab hbc
    cases b with
    | nil => simp [chars_le] at hab
    | cons y ys =>
      cases c with
      | nil => simp [chars_le] at hbc
      | cons z zs =>
        simp only [chars_le] at hab hbc ⊢
        split_ifs at hab hbc ⊢ with h1 h2 h3 h4 h5 h6 <;>
          first
            | rfl
            | omega
            | simp at hab
            | simp at hbc
            | (exact ih ys zs hab hbc)

instance : IsTotal String StrLe := ⟨fun s t => chars_le_total s.data t.data⟩

instance : IsTrans String StrLe := ⟨fun a b c => chars_le_trans a.data b.data c.data⟩

/-- Fixed-width decimal renderings have exactly the requested width. -/
theorem pad_digits_length (w : Nat) : ∀ n, (pad_digits w n).length = w := by
  induction w with
  | zero => intro n; rfl
  | succ w ih => intro n; simp [pad_digits, ih]

/-- Every conventionally-named checkpoint directory name has 17 characters. -/
theorem ckpt_dir_name_length (i : Nat) : (ckpt_dir_name i).length = 17 := by
  have h : (ckpt_dir_name i).data = "checkpoint_".data ++ pad_digits 6 i :=
    String.data_append _ _
  have hlen : (ckpt_dir_name i).data.length = 17 := by
    rw [h, List.length_append, pad_digits_length]
    have h11 : "checkpoint_".data.length = 11 := rfl
    omega
  exact hlen

/-- Reading the metrics log uses the primary file when it exists. -/
theorem read_metrics_df_json (d : TrialDir) (rj : List (List (String × Value)))
    (h : d.result_json = some rj) : read_metrics_df d = .ok (json_normalize rj) := by
  simp [read_metrics_df, h]

/-- Reading the metrics log falls back to the tabular file when the primary
file is absent. -/
theorem read_metrics_df_csv (d : TrialDir) (hdr : List String) (rows : List (List String))
    (h1 : d.result_json = none) (h2 : d.progress_csv = some (hdr, rows)) :
    read_metrics_df d = .ok (read_csv hdr rows) := by
  simp [read_metrics_df, h1, h2]

/-- Reading the metrics log fails when neither log file exists. -/
theorem read_metrics_df_none (d : TrialDir) (h1 : d.result_json = none)
    (h2 : d.progress_csv = none) : read_metrics_df d = .error RestoreError.missingMetricsLog := by
  simp [read_metrics_df, h1, h2]

/-- The only failure of the log-reading step is the missing-log error, and it
occurs only with both log files absent. -/
theorem read_metrics_df_error_elim (d : TrialDir) (e : RestoreError)
    (h : read_metrics_df d = .error e) :
    e = RestoreError.missingMetricsLog ∧ d.result_json = none ∧ d.progress_csv = none := by
  unfold read_metrics_df at h
  split at h
  · exact absurd h (by simp)
  · next hj =>
    split at h
    · exact absurd h (by simp)
    · next hc => exact ⟨by simpa using h.symm, hj, hc⟩

/-- A successful log read means at least one log file existed. -/
theorem read_metrics_df_ok_elim (d : TrialDir) (df : DataFrame)
    (h : read_metrics_df d = .ok df) :
    d.result_json ≠ none ∨ d.progress_csv ≠ none := by
  unfold read_metrics_df at h
  split at h
  · next hj => exact Or.inl (by simp [hj])
  · next hj =>
    split at h
    · next hc => exact Or.inr (by simp [hc])
    · exact absurd h (by simp)

/-- The only failure of the error-artifact step is an unreadable artifact. -/
theorem load_error_artifact_error_elim (d : TrialDir) (e : RestoreError)
    (h : load_error_artifact d = .error e) :
    e = RestoreError.errorArtifactUnreadable ∧ d.error_artifact = some ErrorArtifact.corrupt := by
  unfold load_error_artifact at h
  split at h
  · exact absurd h (by simp)
  · exact absurd h (by simp)
  · next hc => exact ⟨by simpa using h.symm, hc⟩

/-- A successful error-artifact step means the artifact was not corrupt. -/
theorem load_error_artifact_ok_elim (d : TrialDir) (err : Option ErrorRecord)
    (h : load_error_artifact d = .ok err) :
    d.error_artifact ≠ some ErrorArtifact.corrupt := by
  intro hc
  rw [load_error_artifact, hc] at h
  exact absurd h (by simp)

/-- Elimination principle for a successful restoration: the root existed, the
log was read, the error artifact loaded, and the assembled result is exactly
the one built from the scanned checkpoint names (or checkpoint-free when the
scan was empty). -/
theorem from_path_ok_elim (d : TrialDir) (r : RunResult) (h : from_path d = .ok r) :
    d.trial_dir_exists = true ∧
    ∃ df err, read_metrics_df d = .ok df ∧ load_error_artifact d = .ok err ∧
      ((scan_checkpoint_dirs d.entries = [] ∧
        r = ⟨some (latest_row df), none, err, some df, none⟩) ∨
       (scan_checkpoint_dirs d.entries ≠ [] ∧
        df.columns.contains CHECKPOINT_DIR_NAME = true ∧
        r = ⟨some (latest_row df),
             ((scan_checkpoint_dirs d.entries).map (fun nm => join_path d.fs_path nm)).getLast?,
             err, some df,
             some (((scan_checkpoint_dirs d.entries).map (fun nm => join_path d.fs_path nm)).zip
                   ((scan_checkpoint_dirs d.entries).map (fun nm => snapshot_for df nm)))⟩)) := by
  unfold from_path at h
  split at h
  · exact absurd h (by simp)
  · next hcond =>
    have hex : d.trial_dir_exists = true := by
      simpa using hcond
    refine ⟨hex, ?_⟩
    split at h
    · exact absurd h (by simp)
    · next df hdf =>
      split at h
      · next hscan =>
        split at h
        · exact absurd h (by simp)
        · next err herr =>
          refine ⟨df, err, hdf, herr, Or.inl ⟨hscan, ?_⟩⟩
          exact (Except.ok.injEq _ _ ▸ h.symm)
      · next n ns hscan =>
        split at h
        · exact absurd h (by simp)
        · next hcol =>
          split at h
          · exact absurd h (by simp)
          · next err herr =>
            refine ⟨df, err, hdf, herr, Or.inr ⟨by simp [hscan], ?_, ?_⟩⟩
            · simpa using hcol
            · rw [hscan]
              exact (Except.ok.injEq _ _ ▸ h.symm)

/-- Elimination principle for a failed restoration: exactly one of the four
fatal conditions occurred, and the error identifies it. -/
theorem from_path_error_elim (d : TrialDir) (e : RestoreError) (h : from_path d = .error e) :
    (d.trial_dir_exists = false ∧ e = RestoreError.invalidTrialPath) ∨
    (d.trial_dir_exists = true ∧
      ((read_metrics_df d = .error e ∧ e = RestoreError.missingMetricsLog) ∨
       (∃ df, read_metrics_df d = .ok df ∧ scan_checkpoint_dirs d.entries ≠ [] ∧
          df.columns.contains CHECKPOINT_DIR_NAME = false ∧ e = RestoreError.keyError) ∨
       (load_error_artifact d = .error e ∧ e = RestoreError.errorArtifactUnreadable))) := by
  unfold from_path at h
  split at h
  · next hcond => exact Or.inl ⟨hcond, by simpa using h.symm⟩
  · next hcond =>
    have hex : d.trial_dir_exists = true := by simpa using hcond
    refine Or.inr ⟨hex, ?_⟩
    split at h
    · next e0 hdf =>
      have he : e0 = e := by simpa using h
      subst he
      exact Or.inl ⟨hdf, (read_metrics_df_error_elim d e0 hdf).1⟩
    · next df hdf =>
      split at h
      · split at h
        · next e0 herr =>
          have he : e0 = e := by simpa using h
          subst he
          exact Or.inr (Or.inr ⟨herr, (load_error_artifact_error_elim d e0 herr).1⟩)
        · exact absurd h (by simp)
      · next n ns hscan =>
        split at h
        · next hcol =>
          have he : e = RestoreError.keyError := by simpa using h.symm
          exact Or.inr (Or.inl ⟨df, hdf, by simp [hscan], by simpa using hcol, he⟩)
        · split at h
          · next e0 herr =>
            have he : e0 = e := by simpa using h
            subst he
            exact Or.inr (Or.inr ⟨herr, (load_error_artifact_error_elim d e0 herr).1⟩)
          · exact absurd h (by simp)

/-- C3 (counterexample): the claim says a subdirectory whose name has the
`checkpoint_` stem but no well-formed fixed-width numeric index is excluded
from the scan; the code filters only on the stem, so the malformed name
`checkpoint_junk` — which matches no conventionally-formed name — is kept. -/
theorem scan_keeps_malformed_suffix :
    scan_checkpoint_dirs [⟨"checkpoint_junk", true⟩] = ["checkpoint_junk"] ∧
    ∀ i : Nat, "checkpoint_junk" ≠ ckpt_dir_name i := by
  constructor
  · decide
  · intro i h
    have hlen := congrArg String.length h
    rw [ckpt_dir_name_length] at hlen
    have h15 : ("checkpoint_junk" : String).length = 15 := rfl
    omega

/-- C3 (amended): the checkpoint directory scan keeps exactly the names of
the immediate subdirectory entries whose names start with the fixed stem
`checkpoint_` (with no validation of the numeric suffix), and returns them
sorted lexicographically by code point. -/
theorem scan_checkpoint_dirs_sorted_complete (entries : List FileInfo) :
    List.Sorted StrLe (scan_checkpoint_dirs entries) ∧
    (scan_checkpoint_dirs entries).Perm
      ((entries.filter (fun e => e.is_dir && starts_with_checkpoint e.base_name)).map
        (fun e => e.base_name)) :=
  ⟨List.sorted_insertionSort _ _, List.perm_insertionSort _ _⟩

/-- C5 (code behavior at the failing input): on a trial root whose readable
metrics history never carries the correlation key and which holds one
checkpoint directory, restoration aborts with the pandas `KeyError` instead
of completing with an empty snapshot. -/
theorem from_path_missing_corr_key_raises :
    from_path trial_missing_corr_key = .error RestoreError.keyError := by decide

/-- C2 (counterexample): for a trial root with a readable log and zero
checkpoint directories, the restored result carries no checkpoint-record
sequence at all (`None`), not a sequence of length 0. -/
theorem from_path_zero_ckpt_best_none :
    (from_path trial_no_ckpt).map (fun r => r.best_checkpoints) = .ok none ∧
    (trial_no_ckpt.entries.filter
      (fun e => e.is_dir && starts_with_checkpoint e.base_name)).length = 0 := by decide

/-- C7 (counterexample): for the single metrics row `{a: "7"}` — a string
value that parses as a number — restoring from a root with only the primary
log keeps the string, while restoring from a root with only the fallback
tabular log encoding the same row type-infers a number, so the current
metrics mappings differ. -/
theorem fallback_primary_metrics_differ :
    (from_path (primary_only_dir "/t" rows_str7)).map (fun r => r.metrics) =
      .ok (some [("a", Value.str "7")]) ∧
    (from_path (fallback_only_dir "/t" ["a"] rows_str7)).map (fun r => r.metrics) =
      .ok (some [("a", Value.num 7)]) ∧
    Value.str "7" ≠ Value.num 7 := by decide

/-- C10: the `config` property is total and never raises: it yields `None`
when the metrics mapping is absent or empty, and otherwise the value stored
under the `"config"` key, or `None` when that key is absent. -/
theorem config_spec (r : RunResult) :
    (r.metrics = none → config r = none) ∧
    (r.metrics = some [] → config r = none) ∧
    (∀ m, r.metrics = some m → m ≠ [] → config r = lookup_key m "config") := by
  refine ⟨?_, ?_, ?_⟩
  · intro h; simp [config, h]
  · intro h; simp [config, h]
  · intro m hm hne
    have hni : m.isEmpty = false := by
      cases m with
      | nil => exact absurd rfl hne
      | cons a l => rfl
    simp [config, hm, hni]

/-- C10 (witness): evaluating the `config` property at concrete results. -/
theorem config_spec_witness :
    config ⟨some [("config", Value.num 3)], none, none, none, none⟩ = some (Value.num 3) ∧
    config ⟨none, none, none, none, none⟩ = none ∧
    config ⟨some [], none, none, none, none⟩ = none := by
  refine ⟨?_, ?_, ?_⟩
  · rw [(config_spec ⟨some [("config", Value.num 3)], none, none, none, none⟩).2.2
      [("config", Value.num 3)] rfl (by decide)]
    decide
  · exact (config_spec ⟨none, none, none, none, none⟩).1 rfl
  · exact (config_spec ⟨some [], none, none, none, none⟩).2.1 rfl

/-- C6: for an existing trial root, restoration reads the primary
newline-delimited log if that file exists and otherwise the fallback tabular
log (never both), and it fails with the missing-metrics-log error exactly
when neither log file exists. -/
theorem metrics_log_selection (d : TrialDir) (hx : d.trial_dir_exists = true) :
    (∀ rj, d.result_json = some rj → read_metrics_df d = .ok (json_normalize rj)) ∧
    (∀ hdr rows, d.result_json = none → d.progress_csv = some (hdr, rows) →
        read_metrics_df d = .ok (read_csv hdr rows)) ∧
    (from_path d = .error RestoreError.missingMetricsLog ↔
        (d.result_json = none ∧ d.progress_csv = none)) := by
  refine ⟨fun rj h => read_metrics_df_json d rj h,
          fun hdr rows h1 h2 => read_metrics_df_csv d hdr rows h1 h2, ?_, ?_⟩
  · intro h
    rcases from_path_error_elim d _ h with ⟨hf, _⟩ | ⟨_, hcase⟩
    · rw [hx] at hf
      exact Bool.noConfusion hf
    · rcases hcase with ⟨hdf, _⟩ | ⟨df, _, _, _, he⟩ | ⟨_, he⟩
      · exact (read_metrics_df_error_elim d _ hdf).2
      · exact absurd he (by simp)
      · exact absurd he (by simp)
  · rintro ⟨h1, h2⟩
    have hdf := read_metrics_df_none d h1 h2
    simp [from_path, hx, hdf]

/-- C6 (witness): a concrete existing root with only a primary log. -/
theorem metrics_log_selection_witness :
    trial_no_ckpt.trial_dir_exists = true ∧
    ((∀ rj, trial_no_ckpt.result_json = some rj →
        read_metrics_df trial_no_ckpt = .ok (json_normalize rj)) ∧
     (∀ hdr rows, trial_no_ckpt.result_json = none →
        trial_no_ckpt.progress_csv = some (hdr, rows) →
        read_metrics_df trial_no_ckpt = .ok (read_csv hdr rows)) ∧
     (from_path trial_no_ckpt = .error RestoreError.missingMetricsLog ↔
        (trial_no_ckpt.result_json = none ∧ trial_no_ckpt.progress_csv = none))) :=
  ⟨by decide, metrics_log_selection trial_no_ckpt (by decide)⟩

/-- C9: restoration is all-or-nothing: it fails with the invalid-path error
exactly when the trial root does not exist, and a returned result implies
every fatal condition was absent (root exists, some metrics log exists, the
error-artifact read did not fail) and the result is fully populated with the
restored metrics and dataframe. -/
theorem from_path_all_or_nothing (d : TrialDir) :
    (d.trial_dir_exists = false → from_path d = .error RestoreError.invalidTrialPath) ∧
    (from_path d = .error RestoreError.invalidTrialPath → d.trial_dir_exists = false) ∧
    (∀ r, from_path d = .ok r →
        d.trial_dir_exists = true ∧
        (d.result_json ≠ none ∨ d.progress_csv ≠ none) ∧
        d.error_artifact ≠ some ErrorArtifact.corrupt ∧
        r.metrics.isSome = true ∧ r.metrics_dataframe.isSome = true) := by
  refine ⟨?_, ?_, ?_⟩
  · intro h; simp [from_path, h]
  · intro h
    rcases from_path_error_elim d _ h with ⟨hf, _⟩ | ⟨_, hcase⟩
    · exact hf
    · exfalso
      rcases hcase with ⟨_, he⟩ | ⟨df, _, _, _, he⟩ | ⟨_, he⟩ <;> exact absurd he (by simp)
  · intro r h
    obtain ⟨hex, df, err, hdf, herr, hcase⟩ := from_path_ok_elim d r h
    refine ⟨hex, read_metrics_df_ok_elim d df hdf, load_error_artifact_ok_elim d err herr, ?_⟩
    rcases hcase with ⟨_, hr⟩ | ⟨_, _, hr⟩ <;> subst hr <;> exact ⟨rfl, rfl⟩

/-- C9 (witness): a nonexistent root fails with the invalid-path error. -/
theorem from_path_all_or_nothing_witness :
    (⟨false, "/x", none, none, [], none⟩ : TrialDir).trial_dir_exists = false ∧
    from_path ⟨false, "/x", none, none, [], none⟩ = .error RestoreError.invalidTrialPath :=
  ⟨by decide, (from_path_all_or_nothing ⟨false, "/x", none, none, [], none⟩).1 (by decide)⟩

/-- CPython `max(..., key=f)` returns the first element attaining the
maximum key: the list splits around the returned element so that everything
before it is strictly smaller and everything after it is no larger. -/
theorem py_extremal_max_split {α : Type} (g : α → Int) (key : α → Value) :
    ∀ (xs : List α) (b : α), key b = Value.num (g b) → (∀ x ∈ xs, key x = Value.num (g x)) →
    ∃ l1 l2, b :: xs = l1 ++ (py_extremal (fun cur new => value_lt cur new) key b xs) :: l2 ∧
      (∀ y ∈ l1, g y < g (py_extremal (fun cur new => value_lt cur new) key b xs)) ∧
      (∀ y ∈ l2, g y ≤ g (py_extremal (fun cur new => value_lt cur new) key b xs)) := by
  intro xs
  induction xs with
  | nil =>
    intro b _ _
    exact ⟨[], [], rfl, by simp, by simp⟩
  | cons x xs ih =>
    intro b hb hxs
    have hx : key x = Value.num (g x) := hxs x (by simp)
    have hxs' : ∀ y ∈ xs, key y = Value.num (g y) := fun y hy => hxs y (by simp [hy])
    have hcond : value_lt (key b) (key x) = decide (g b < g x) := by rw [hb, hx]; rfl
    simp only [py_extremal]
    rw [hcond]
    by_cases hbx : g b < g x
    · rw [decide_eq_true hbx, cond_true]
      obtain ⟨l1, l2, hsplit, h1, h2⟩ := ih x hx hxs'
      cases l1 with
      | nil =>
        simp only [List.nil_append, List.cons.injEq] at hsplit
        obtain ⟨hres, hl2⟩ := hsplit
        refine ⟨[b], l2, ?_, ?_, h2⟩
        · rw [← hres, ← hl2]
          rfl
        · intro y hy
          simp only [List.mem_singleton] at hy
          subst hy
          rw [← hres]
          exact hbx
      | cons h1' t1 =>
        simp only [List.cons_append, List.cons.injEq] at hsplit
        obtain ⟨hxh, htail⟩ := hsplit
        refine ⟨b :: x :: t1, l2, ?_, ?_, h2⟩
        · rw [List.cons_append, List.cons_append, ← htail]
        · have hxlt : g x < g (py_extremal (fun cur new => value_lt cur new) key x xs) := by
            have hmem := h1 h1' (by simp)
            rwa [← hxh] at hmem
          intro y hy
          simp only [List.mem_cons] at hy
          rcases hy with rfl | rfl | hy
          · exact lt_trans hbx hxlt
          · exact hxlt
          · exact h1 y (by simp [hy])
    · rw [decide_eq_false hbx, cond_false]
      obtain ⟨l1, l2, hsplit, h1, h2⟩ := ih b hb hxs'
      cases l1 with
      | nil =>
        simp only [List.nil_append, List.cons.injEq] at hsplit
        obtain ⟨hres, hl2⟩ := hsplit
        refine ⟨[], x :: xs, ?_, by simp, ?_⟩
        · rw [← hres]
          rfl
        · intro y hy
          simp only [List.mem_cons] at hy
          rcases hy with rfl | hy
          · rw [← hres]
            omega
          · have hyl2 : y ∈ l2 := hl2 ▸ hy
            exact h2 y hyl2
      | cons h1' t1 =>
        simp only [List.cons_append, List.cons.injEq] at hsplit
        obtain ⟨hbh, htail⟩ := hsplit
        refine ⟨b :: x :: t1, l2, ?_, ?_, h2⟩
        · rw [List.cons_append, List.cons_append, ← htail]
        · have hblt : g b < g (py_extremal (fun cur new => value_lt cur new) key b xs) := by
            have hmem := h1 h1' (by simp)
            rwa [← hbh] at hmem
          intro y hy
          simp only [List.mem_cons] at hy
          rcases hy with rfl | rfl | hy
          · exact hblt
          · omega
          · exact h1 y (by simp [hy])

/-- CPython `min(..., key=f)` returns the first element attaining the
minimum key: the list splits around the returned element so that everything
before it is strictly larger and everything after it is no smaller. -/
theorem py_extremal_min_split {α : Type} (g : α → Int) (key : α → Value) :
    ∀ (xs : List α) (b : α), key b = Value.num (g b) → (∀ x ∈ xs, key x = Value.num (g x)) →
    ∃ l1 l2, b :: xs = l1 ++ (py_extremal (fun cur new => value_lt new cur) key b xs) :: l2 ∧
      (∀ y ∈ l1, g (py_extremal (fun cur new => value_lt new cur) key b xs) < g y) ∧
      (∀ y ∈ l2, g (py_extremal (fun cur new => value_lt new cur) key b xs) ≤ g y) := by
  intro xs
  induction xs with
  | nil =>
    intro b _ _
    exact ⟨[], [], rfl, by simp, by simp⟩
  | cons x xs ih =>
    intro b hb hxs
    have hx : key x = Value.num (g x) := hxs x (by simp)
    have hxs' : ∀ y ∈ xs, key y = Value.num (g y) := fun y hy => hxs y (by simp [hy])
    have hcond : value_lt (key x) (key b) = decide (g x < g b) := by rw [hb, hx]; rfl
    simp only [py_extremal]
    rw [hcond]
    by_cases hbx : g x < g b
    · rw [decide_eq_true hbx, cond_true]
      obtain ⟨l1, l2, hsplit, h1, h2⟩ := ih x hx hxs'
      cases l1 with
      | nil =>
        simp only [List.nil_append, List.cons.injEq] at hsplit
        obtain ⟨hres, hl2⟩ := hsplit
        refine ⟨[b], l2, ?_, ?_, h2⟩
        · rw [← hres, ← hl2]
          rfl
        · intro y hy
          simp only [List.mem_singleton] at hy
          subst hy
          rw [← hres]
          exact hbx
      | cons h1' t1 =>
        simp only [List.cons_append, List.cons.injEq] at hsplit
        obtain ⟨hxh, htail⟩ := hsplit
        refine ⟨b :: x :: t1, l2, ?_, ?_, h2⟩
        · rw [List.cons_append, List.cons_append, ← htail]
        · have hxlt : g (py_extremal (fun cur new => value_lt new cur) key x xs) < g x := by
            have hmem := h1 h1' (by simp)
            rwa [← hxh] at hmem
          intro y hy
          simp only [List.mem_cons] at hy
          rcases hy with rfl | rfl | hy
          · exact lt_trans hxlt hbx
          · exact hxlt
          · exact h1 y (by simp [hy])
    · rw [decide_eq_false hbx, cond_false]
      obtain ⟨l1, l2, hsplit, h1, h2⟩ := ih b hb hxs'
      cases l1 with
      | nil =>
        simp only [List.nil_append, List.cons.injEq] at hsplit
        obtain ⟨hres, hl2⟩ := hsplit
        refine ⟨[], x :: xs, ?_, by simp, ?_⟩
        · rw [← hres]
          rfl
        · intro y hy
          simp only [List.mem_cons] at hy
          rcases hy with rfl | hy
          · rw [← hres]
            omega
          · have hyl2 : y ∈ l2 := hl2 ▸ hy
            exact h2 y hyl2
      | cons h1' t1 =>
        simp only [List.cons_append, List.cons.injEq] at hsplit
        obtain ⟨hbh, htail⟩ := hsplit
        refine ⟨b :: x :: t1, l2, ?_, ?_, h2⟩
        · rw [List.cons_append, List.cons_append, ← htail]
        · have hblt : g (py_extremal (fun cur new => value_lt new cur) key b xs) < g b := by
            have hmem := h1 h1' (by simp)
            rwa [← hbh] at hmem
          intro y hy
          simp only [List.mem_cons] at hy
          rcases hy with rfl | rfl | hy
          · exact hblt
          · omega
          · exact h1 y (by simp [hy])

/-- Evaluation of `get_best_checkpoint` on a result with a nonempty record
list and a nonempty filtered record list. -/
theorem get_best_eval (r : RunResult) (metric mode : String)
    (b : String × List (String × Value)) (bs vs : List (String × List (String × Value)))
    (v : String × List (String × Value))
    (hb : r.best_checkpoints = some (b :: bs))
    (hfil : (b :: bs).filter (fun ci => (lookup_key ci.2 metric).isSome) = v :: vs) :
    get_best_checkpoint r metric mode =
      if mode = "max" ∨ mode = "min" then
        (if mode = "max" then
          .ok (py_extremal (fun cur new => value_lt cur new)
                (fun ci => (lookup_key ci.2 metric).getD Value.null) v vs).1
         else
          .ok (py_extremal (fun cur new => value_lt new cur)
                (fun ci => (lookup_key ci.2 metric).getD Value.null) v vs).1)
      else .error (SelectError.invalidMode mode) := by
  simp only [get_best_checkpoint, hb, hfil]

/-- C1: for every result with a nonempty checkpoint-record sequence, a
metric whose values are numeric on the filtered records, and mode `max` or
`min`, `get_best_checkpoint` returns the record, among those whose snapshot
contains the metric, whose value at the metric is extremal (maximum for
`max`, minimum for `min`); with ties, the record earliest in checkpoint
order is returned, for both modes (all records before the chosen one are
strictly worse, all after are no better). -/
theorem get_best_checkpoint_extremal_earliest
    (r : RunResult) (metric mode : String)
    (bcs : List (String × List (String × Value)))
    (g : String × List (String × Value) → Int)
    (hb : r.best_checkpoints = some bcs) (hne : bcs ≠ [])
    (hmode : mode = "max" ∨ mode = "min")
    (hval : ∀ p ∈ bcs.filter (fun ci => (lookup_key ci.2 metric).isSome),
        lookup_key p.2 metric = some (Value.num (g p)))
    (hvne : bcs.filter (fun ci => (lookup_key ci.2 metric).isSome) ≠ []) :
    ∃ c l1 l2,
      bcs.filter (fun ci => (lookup_key ci.2 metric).isSome) = l1 ++ c :: l2 ∧
      get_best_checkpoint r metric mode = .ok c.1 ∧
      (mode = "max" → (∀ y ∈ l1, g y < g c) ∧ (∀ y ∈ l2, g y ≤ g c)) ∧
      (mode = "min" → (∀ y ∈ l1, g c < g y) ∧ (∀ y ∈ l2, g c ≤ g y)) := by
  cases bcs with
  | nil => exact absurd rfl hne
  | cons b bs =>
    rcases hfil : (b :: bs).filter (fun ci => (lookup_key ci.2 metric).isSome) with _ | ⟨v, vs⟩
    · exact absurd hfil hvne
    · have hkeyv : (fun ci => (lookup_key ci.2 metric).getD Value.null) v = Value.num (g v) := by
        have hvmem : v ∈ (b :: bs).filter (fun ci => (lookup_key ci.2 metric).isSome) := by
          rw [hfil]; simp
        simp [hval v hvmem]
      have hkeyvs :
          ∀ y ∈ vs, (fun ci => (lookup_key ci.2 metric).getD Value.null) y = Value.num (g y) := by
        intro y hy
        have hymem : y ∈ (b :: bs).filter (fun ci => (lookup_key ci.2 metric).isSome) := by
          rw [hfil]; simp [hy]
        simp [hval y hymem]
      have heval := get_best_eval r metric mode b bs vs v hb hfil
      rw [if_pos hmode] at heval
      rcases hmode with hmax | hmin
      · subst hmax
        rw [if_pos rfl] at heval
        obtain ⟨l1, l2, hsplit, h1, h2⟩ :=
          py_extremal_max_split g (fun ci => (lookup_key ci.2 metric).getD Value.null) vs v
            hkeyv hkeyvs
        refine ⟨_, l1, l2, ?_, heval, fun _ => ⟨h1, h2⟩, ?_⟩
        · rw [hfil, hsplit]
        · intro hcontra
          exact absurd hcontra (by simp)
      · subst hmin
        rw [if_neg (by simp)] at heval
        obtain ⟨l1, l2, hsplit, h1, h2⟩ :=
          py_extremal_min_split g (fun ci => (lookup_key ci.2 metric).getD Value.null) vs v
            hkeyv hkeyvs
        refine ⟨_, l1, l2, ?_, heval, ?_, fun _ => ⟨h1, h2⟩⟩
        · rw [hfil, hsplit]
        · intro hcontra
          exact absurd hcontra (by simp)

/-- C1 (witness): with records scoring 2, 5, 5 on metric `a`, selection at
mode `max` picks the first record attaining 5. -/
theorem get_best_checkpoint_extremal_earliest_witness :
    (witness_result.best_checkpoints = some witness_records ∧
     witness_records ≠ [] ∧
     (∀ p ∈ witness_records.filter (fun ci => (lookup_key ci.2 "a").isSome),
        lookup_key p.2 "a" = some (Value.num (witness_gain p))) ∧
     witness_records.filter (fun ci => (lookup_key ci.2 "a").isSome) ≠ []) ∧
    (∃ c l1 l2,
      witness_records.filter (fun ci => (lookup_key ci.2 "a").isSome) = l1 ++ c :: l2 ∧
      get_best_checkpoint witness_result "a" "max" = .ok c.1 ∧
      ("max" = "max" → (∀ y ∈ l1, witness_gain y < witness_gain c) ∧
                        (∀ y ∈ l2, witness_gain y ≤ witness_gain c)) ∧
      ("max" = "min" → (∀ y ∈ l1, witness_gain c < witness_gain y) ∧
                        (∀ y ∈ l2, witness_gain c ≤ witness_gain y))) :=
  ⟨⟨by decide, by decide, by decide, by decide⟩,
   get_best_checkpoint_extremal_earliest witness_result "a" "max" witness_records witness_gain
     (by decide) (by decide) (Or.inl rfl) (by decide) (by decide)⟩

/-- C8: when the requested metric key is absent from every checkpoint
record's snapshot, `get_best_checkpoint` fails with the unknown-metric error
whose message enumerates the keys of the run's current metrics snapshot. -/
theorem get_best_checkpoint_unknown_metric
    (r : RunResult) (metric mode : String)
    (bcs : List (String × List (String × Value))) (m : List (String × Value))
    (hb : r.best_checkpoints = some bcs) (hne : bcs ≠ [])
    (hmode : mode = "max" ∨ mode = "min")
    (hm : r.metrics = some m)
    (habsent : ∀ p ∈ bcs, lookup_key p.2 metric = none) :
    get_best_checkpoint r metric mode =
      .error (SelectError.unknownMetric metric (m.map Prod.fst)) := by
  cases bcs with
  | nil => exact absurd rfl hne
  | cons b bs =>
    have hfil : (b :: bs).filter (fun ci => (lookup_key ci.2 metric).isSome) = [] := by
      rw [List.filter_eq_nil_iff]
      intro p hp
      simp [habsent p hp]
    simp only [get_best_checkpoint, hb]
    rw [if_pos hmode]
    simp only [hfil, hm]

/-- C8 (witness): requesting the unknown metric `zz` on a concrete result
yields the unknown-metric error listing the current metrics key `a`. -/
theorem get_best_checkpoint_unknown_metric_witness :
    (witness_result.best_checkpoints = some witness_records ∧
     witness_records ≠ [] ∧
     witness_result.metrics = some [("a", Value.num 1)] ∧
     (∀ p ∈ witness_records, lookup_key p.2 "zz" = none)) ∧
    get_best_checkpoint witness_result "zz" "min" =
      .error (SelectError.unknownMetric "zz" ([("a", Value.num 1)].map Prod.fst)) :=
  ⟨⟨by decide, by decide, by decide, by decide⟩,
   get_best_checkpoint_unknown_metric witness_result "zz" "min" witness_records
     [("a", Value.num 1)] (by decide) (by decide) (Or.inr rfl) (by decide) (by decide)⟩


/-- The last element kept by a filter splits the list: everything after the
split point fails the predicate. -/
theorem filter_getLast_split {α : Type} (p : α → Bool) :
    ∀ l : List α, l.filter p ≠ [] →
    ∃ l1 y l2, l = l1 ++ y :: l2 ∧ p y = true ∧
      (l.filter p).getLast? = some y ∧ ∀ z ∈ l2, p z = false := by
  intro l
  induction l with
  | nil => intro h; simp at h
  | cons a l ih =>
    intro h
    by_cases hfl : l.filter p = []
    · have hpa : p a = true := by
        by_contra hpa'
        have hpaf : p a = false := by
          cases hv : p a
          · rfl
          · exact absurd hv hpa'
        have : (a :: l).filter p = [] := by
          rw [List.filter_cons, hpaf]
          simpa using hfl
        exact h this
      refine ⟨[], a, l, by simp, hpa, ?_, ?_⟩
      · rw [List.filter_cons, hpa]
        simp [hfl]
      · intro z hz
        have := List.filter_eq_nil_iff.mp hfl z hz
        cases hv : p z
        · rfl
        · exact absurd hv this
    · obtain ⟨l1, y, l2, hsplit, hpy, hlast, hnone⟩ := ih hfl
      refine ⟨a :: l1, y, l2, by simp [hsplit], hpy, ?_, hnone⟩
      rcases hfl' : l.filter p with _ | ⟨c, t⟩
      · exact absurd hfl' hfl
      · rw [List.filter_cons]
        cases hpa : p a
        · simpa using hlast
        · simp only [if_true]
          rw [hfl', List.getLast?_cons_cons]
          rw [hfl'] at hlast
          exact hlast

/-- C4: for every checkpoint directory discovered by a successful restore,
if at least one history row's correlation-key value equals the directory
name, the snapshot attached to that checkpoint's record is the last matching
row in history order: the history splits around the attached row, every row
after it failing the correlation match. -/
theorem from_path_last_matching_snapshot
    (d : TrialDir) (r : RunResult) (l : List (String × List (String × Value)))
    (h : from_path d = .ok r) (hl : r.best_checkpoints = some l)
    (i : Nat) (hi : i < l.length) :
    ∃ df, read_metrics_df d = .ok df ∧
    ∃ hn : i < (scan_checkpoint_dirs d.entries).length,
      (l.get ⟨i, hi⟩).1 =
        join_path d.fs_path ((scan_checkpoint_dirs d.entries).get ⟨i, hn⟩) ∧
      (matching_rows df ((scan_checkpoint_dirs d.entries).get ⟨i, hn⟩) ≠ [] →
        ∃ rows1 row rows2,
          df.rows = rows1 ++ row :: rows2 ∧
          row_matches row ((scan_checkpoint_dirs d.entries).get ⟨i, hn⟩) = true ∧
          (l.get ⟨i, hi⟩).2 = row ∧
          ∀ row2 ∈ rows2,
            row_matches row2 ((scan_checkpoint_dirs d.entries).get ⟨i, hn⟩) = false) := by
  obtain ⟨hex, df, err, hdf, herr, hcase⟩ := from_path_ok_elim d r h
  rcases hcase with ⟨hscan, hr⟩ | ⟨hscan, hcol, hr⟩
  · rw [hr] at hl
    exact absurd hl (by simp)
  · rw [hr] at hl
    simp only [Option.some.injEq] at hl
    subst hl
    refine ⟨df, hdf, ?_⟩
    have hn : i < (scan_checkpoint_dirs d.entries).length := by
      have hi2 := hi
      simp only [List.length_zip, List.length_map, min_self] at hi2
      exact hi2
    refine ⟨hn, ?_, ?_⟩
    · simp only [List.get_eq_getElem, List.getElem_zip, List.getElem_map]
    · intro hne
      obtain ⟨rows1, row, rows2, hsplit, hpy, hlast, hnone⟩ :=
        filter_getLast_split
          (fun row => row_matches row ((scan_checkpoint_dirs d.entries).get ⟨i, hn⟩))
          df.rows hne
      refine ⟨rows1, row, rows2, hsplit, hpy, ?_, hnone⟩
      simp only [List.get_eq_getElem, List.getElem_zip, List.getElem_map]
      rw [snapshot_for, matching_rows]
      simp only [List.get_eq_getElem] at hlast
      rw [hlast]
      rfl

/-- C4 (witness): a root whose history reports twice at the same checkpoint
attaches the later row to the record. -/
theorem from_path_last_matching_snapshot_witness :
    (from_path trial_corr = .ok trial_corr_result ∧
     trial_corr_result.best_checkpoints = some [("/t/checkpoint_000001", corr_row_late)] ∧
     0 < ([("/t/checkpoint_000001", corr_row_late)] :
        List (String × List (String × Value))).length) ∧
    (∃ df, read_metrics_df trial_corr = .ok df ∧
     ∃ hn : 0 < (scan_checkpoint_dirs trial_corr.entries).length,
       (([("/t/checkpoint_000001", corr_row_late)] :
           List (String × List (String × Value))).get ⟨0, by decide⟩).1 =
         join_path trial_corr.fs_path ((scan_checkpoint_dirs trial_corr.entries).get ⟨0, hn⟩) ∧
       (matching_rows df ((scan_checkpoint_dirs trial_corr.entries).get ⟨0, hn⟩) ≠ [] →
         ∃ rows1 row rows2,
           df.rows = rows1 ++ row :: rows2 ∧
           row_matches row ((scan_checkpoint_dirs trial_corr.entries).get ⟨0, hn⟩) = true ∧
           (([("/t/checkpoint_000001", corr_row_late)] :
               List (String × List (String × Value))).get ⟨0, by decide⟩).2 = row ∧
           ∀ row2 ∈ rows2,
             row_matches row2 ((scan_checkpoint_dirs trial_corr.entries).get ⟨0, hn⟩) = false)) :=
  ⟨⟨by decide, by decide, by decide⟩,
   from_path_last_matching_snapshot trial_corr trial_corr_result
     [("/t/checkpoint_000001", corr_row_late)] (by decide) (by decide) 0 (by decide)⟩


/-- Folding fresh keys into a column accumulator appends them in order. -/
theorem foldl_insert_key_new :
    ∀ (ks : List String) (acc : List String), ks.Nodup →
      (∀ k ∈ ks, acc.contains k = false) → ks.foldl insert_key acc = acc ++ ks := by
  intro ks
  induction ks with
  | nil => intro acc _ _; simp
  | cons k ks ih =>
    intro acc hnd hfree
    have hstep : insert_key acc k = acc ++ [k] := by
      rw [insert_key, hfree k (by simp)]
      simp
    have hfree' : ∀ k' ∈ ks, (acc ++ [k]).contains k' = false := by
      intro k' hk'
      have h1 : acc.contains k' = false := hfree k' (by simp [hk'])
      have h2 : k' ≠ k := by
        intro hkk
        subst hkk
        exact (List.nodup_cons.mp hnd).1 hk'
      simp at h1 ⊢
      exact ⟨h1, h2⟩
    rw [List.foldl_cons, hstep, ih (acc ++ [k]) (List.nodup_cons.mp hnd).2 hfree']
    simp

/-- Folding already-present keys into a column accumulator is a no-op. -/
theorem foldl_insert_key_old :
    ∀ (ks : List String) (acc : List String),
      (∀ k ∈ ks, acc.contains k = true) → ks.foldl insert_key acc = acc := by
  intro ks
  induction ks with
  | nil => intro acc _; rfl
  | cons k ks ih =>
    intro acc hin
    have hstep : insert_key acc k = acc := by
      rw [insert_key, hin k (by simp)]
      simp
    rw [List.foldl_cons, hstep, ih acc (fun k' hk' => hin k' (by simp [hk']))]

/-- Accumulating the keys of rows that all share the header changes
nothing once the header is collected. -/
theorem foldl_rows_const (header : List String) :
    ∀ rows : List (List (String × Value)),
      (∀ r ∈ rows, r.map Prod.fst = header) →
      rows.foldl (fun acc r => (r.map Prod.fst).foldl insert_key acc) header = header := by
  intro rows
  induction rows with
  | nil => intro _; rfl
  | cons r rs ih =>
    intro hk
    rw [List.foldl_cons]
    have hr : r.map Prod.fst = header := hk r (by simp)
    rw [hr, foldl_insert_key_old header header (by intro k hk'; simp [hk'])]
    exact ih (fun x hx => hk x (by simp [hx]))

/-- The column union of a nonempty history whose rows all carry exactly the
header keys is the header. -/
theorem union_keys_of_const (header : List String) (hnd : header.Nodup)
    (r : List (String × Value)) (rs : List (List (String × Value)))
    (hk : ∀ x ∈ r :: rs, x.map Prod.fst = header) : union_keys (r :: rs) = header := by
  rw [union_keys, List.foldl_cons]
  have hr : r.map Prod.fst = header := hk r (by simp)
  rw [hr, foldl_insert_key_new header [] hnd (fun k _ => rfl)]
  simp only [List.nil_append]
  exact foldl_rows_const header rs (fun x hx => hk x (by simp [hx]))

/-- Re-reading a duplicate-free row through its own key list reproduces it. -/
theorem normalize_row_self :
    ∀ r : List (String × Value), (r.map Prod.fst).Nodup →
      (r.map Prod.fst).map (fun c => (c, (lookup_key r c).getD Value.null)) = r := by
  intro r
  induction r with
  | nil => intro _; rfl
  | cons kv r ih =>
    intro hnd
    obtain ⟨k, v⟩ := kv
    simp only [List.map_cons] at hnd ⊢
    have hnotin : k ∉ r.map Prod.fst := (List.nodup_cons.mp hnd).1
    have hhead : lookup_key ((k, v) :: r) k = some v := by
      simp [lookup_key, List.find?]
    rw [hhead]
    have hcong : ∀ c ∈ r.map Prod.fst,
        (fun c => (c, (lookup_key ((k, v) :: r) c).getD Value.null)) c =
        (fun c => (c, (lookup_key r c).getD Value.null)) c := by
      intro c hc
      have hckf : (k == c) = false := by
        simp only [beq_eq_false_iff_ne, ne_eq]
        intro he
        exact hnotin (he ▸ hc)
      have hl : lookup_key ((k, v) :: r) c = lookup_key r c := by
        simp [lookup_key, List.find?_cons, hckf]
      simp only [hl]
    rw [List.map_congr_left hcong, ih (List.nodup_cons.mp hnd).2]
    rfl

/-- A key present in a row's key list looks up to one of the row's values. -/
theorem lookup_key_mem (r : List (String × Value)) (c : String) (hc : c ∈ r.map Prod.fst) :
    ∃ kv ∈ r, lookup_key r c = some kv.2 := by
  rw [lookup_key]
  have hsome : (r.find? (fun p => p.1 == c)).isSome := by
    rw [List.find?_isSome]
    obtain ⟨kv, hkv, hfst⟩ := List.mem_map.mp hc
    exact ⟨kv, hkv, by simp [hfst]⟩
  obtain ⟨kv, hkv⟩ := Option.isSome_iff_exists.mp hsome
  exact ⟨kv, List.mem_of_find?_eq_some hkv, by rw [hkv]; rfl⟩

/-- Normalizing a nonempty history of header-shaped rows is the identity. -/
theorem json_normalize_of_const (header : List String) (hnd : header.Nodup)
    (r : List (String × Value)) (rs : List (List (String × Value)))
    (hkeys : ∀ x ∈ r :: rs, x.map Prod.fst = header) :
    json_normalize (r :: rs) = ⟨header, r :: rs⟩ := by
  have hu : union_keys (r :: rs) = header := union_keys_of_const header hnd r rs hkeys
  rw [json_normalize, hu]
  have hrows : (r :: rs).map (fun x => header.map (fun c => (c, (lookup_key x c).getD Value.null)))
      = r :: rs := by
    have hcong : ∀ x ∈ r :: rs,
        (fun x => header.map (fun c => (c, (lookup_key x c).getD Value.null))) x = id x := by
      intro x hx
      have hxk : x.map Prod.fst = header := hkeys x hx
      have hxnd : (x.map Prod.fst).Nodup := by rw [hxk]; exact hnd
      calc header.map (fun c => (c, (lookup_key x c).getD Value.null))
          = (x.map Prod.fst).map (fun c => (c, (lookup_key x c).getD Value.null)) := by rw [hxk]
        _ = x := normalize_row_self x hxnd
    rw [List.map_congr_left hcong, List.map_id]
  rw [hrows]

/-- Reading back the fallback encoding of header-shaped, round-trippable
rows reproduces the dataframe exactly. -/
theorem read_csv_encode (header : List String) (rows : List (List (String × Value)))
    (hnd : header.Nodup)
    (hkeys : ∀ r ∈ rows, r.map Prod.fst = header)
    (hrt : ∀ r ∈ rows, ∀ kv ∈ r, infer_value (encode_cell kv.2) = kv.2) :
    read_csv header (encode_csv_rows header rows) = ⟨header, rows⟩ := by
  rw [read_csv, encode_csv_rows, List.map_map]
  have hcong : ∀ r ∈ rows,
      ((fun cells => (header.zip cells).map (fun p => (p.1, infer_value p.2))) ∘
       (fun r => header.map (fun c => encode_cell ((lookup_key r c).getD Value.null)))) r
      = id r := by
    intro r hr
    simp only [Function.comp, id]
    have hzip : header.zip (header.map (fun c => encode_cell ((lookup_key r c).getD Value.null)))
        = header.map (fun c => (c, encode_cell ((lookup_key r c).getD Value.null))) := by
      have hz := List.zip_map' id (fun c => encode_cell ((lookup_key r c).getD Value.null)) header
      rw [List.map_id] at hz
      exact hz
    rw [hzip, List.map_map]
    have hpt : ∀ c ∈ header,
        ((fun p : String × String => (p.1, infer_value p.2)) ∘
         (fun c => (c, encode_cell ((lookup_key r c).getD Value.null)))) c =
        (fun c => (c, (lookup_key r c).getD Value.null)) c := by
      intro c hc
      simp only [Function.comp_apply]
      have hc' : c ∈ r.map Prod.fst := by rw [hkeys r hr]; exact hc
      obtain ⟨kv, hkvmem, hlook⟩ := lookup_key_mem r c hc'
      rw [hlook]
      simp only [Option.getD_some]
      rw [hrt r hr kv hkvmem]
    rw [List.map_congr_left hpt]
    calc header.map (fun c => (c, (lookup_key r c).getD Value.null))
        = (r.map Prod.fst).map (fun c => (c, (lookup_key r c).getD Value.null)) := by
          rw [hkeys r hr]
      _ = r := normalize_row_self r (by rw [hkeys r hr]; exact hnd)
  rw [List.map_congr_left hcong, List.map_id]

/-- Evaluation of `from_path` on a root with no directory entries and no
error artifact. -/
theorem from_path_no_ckpt_eval (d : TrialDir) (df : DataFrame)
    (hex : d.trial_dir_exists = true) (hdf : read_metrics_df d = .ok df)
    (hent : d.entries = []) (herr : d.error_artifact = none) :
    from_path d = .ok ⟨some (latest_row df), none, none, some df, none⟩ := by
  have hscan : scan_checkpoint_dirs d.entries = [] := by rw [hent]; rfl
  have hload : load_error_artifact d = .ok none := by simp [load_error_artifact, herr]
  simp [from_path, hex, hdf, hscan, hload]

/-- C7 (amended): for metrics rows over a duplicate-free header whose values
all survive the fallback text encoding and type inference, restoring from a
root with only the fallback tabular log yields the same current metrics
mapping as restoring from a root whose primary log encodes the same rows. -/
theorem fallback_primary_equiv
    (p : String) (header : List String) (rows : List (List (String × Value)))
    (hnd : header.Nodup)
    (hkeys : ∀ r ∈ rows, r.map Prod.fst = header)
    (hrt : ∀ r ∈ rows, ∀ kv ∈ r, infer_value (encode_cell kv.2) = kv.2) :
    ∃ r1 r2, from_path (primary_only_dir p rows) = .ok r1 ∧
      from_path (fallback_only_dir p header rows) = .ok r2 ∧ r1.metrics = r2.metrics := by
  have hdfj : read_metrics_df (primary_only_dir p rows) = .ok (json_normalize rows) :=
    read_metrics_df_json _ rows rfl
  have hdfc : read_metrics_df (fallback_only_dir p header rows) =
      .ok (read_csv header (encode_csv_rows header rows)) :=
    read_metrics_df_csv _ header _ rfl rfl
  refine ⟨_, _, from_path_no_ckpt_eval _ _ rfl hdfj rfl rfl,
          from_path_no_ckpt_eval _ _ rfl hdfc rfl rfl, ?_⟩
  show some (latest_row (json_normalize rows)) =
       some (latest_row (read_csv header (encode_csv_rows header rows)))
  cases rows with
  | nil =>
    simp [json_normalize, read_csv, encode_csv_rows, latest_row, df_is_empty, union_keys]
  | cons r rs =>
    rw [json_normalize_of_const header hnd r rs hkeys,
        read_csv_encode header (r :: rs) hnd hkeys hrt]

/-- C7 (witness): two concrete rows of numbers, a plain string, and a null
round-trip identically through both logs. -/
theorem fallback_primary_equiv_witness :
    ((["a", "b"] : List String).Nodup ∧
     (∀ r ∈ [[("a", Value.num 1), ("b", Value.str "x")],
             [("a", Value.num (-2)), ("b", Value.null)]], r.map Prod.fst = ["a", "b"]) ∧
     (∀ r ∈ [[("a", Value.num 1), ("b", Value.str "x")],
             [("a", Value.num (-2)), ("b", Value.null)]],
        ∀ kv ∈ r, infer_value (encode_cell kv.2) = kv.2)) ∧
    (∃ r1 r2,
      from_path (primary_only_dir "/t" [[("a", Value.num 1), ("b", Value.str "x")],
                                        [("a", Value.num (-2)), ("b", Value.null)]]) = .ok r1 ∧
      from_path (fallback_only_dir "/t" ["a", "b"]
        [[("a", Value.num 1), ("b", Value.str "x")],
         [("a", Value.num (-2)), ("b", Value.null)]]) = .ok r2 ∧
      r1.metrics = r2.metrics) :=
  ⟨⟨by decide, by decide, by decide⟩,
   fallback_primary_equiv "/t" ["a", "b"]
     [[("a", Value.num 1), ("b", Value.str "x")], [("a", Value.num (-2)), ("b", Value.null)]]
     (by decide) (by decide) (by decide)⟩


/-- Decimal digit characters compare by code point exactly as their values. -/
theorem digit_char_lt_iff (a b : Nat) (ha : a < 10) (hb : b < 10) :
    ((digit_char a).val.toNat < (digit_char b).val.toNat) ↔ a < b := by
  interval_cases a <;> interval_cases b <;> decide

/-- Fixed-width zero-padded renderings compare lexicographically exactly as
their numeric values (the spec's lexicographic-equals-numeric precondition). -/
theorem chars_le_pad_iff : ∀ (w i j : Nat), i < 10 ^ w → j < 10 ^ w →
    (chars_le (pad_digits w i) (pad_digits w j) = true ↔ i ≤ j) := by
  intro w
  induction w with
  | zero =>
    intro i j hi hj
    simp only [pad_digits, chars_le, true_iff]
    omega
  | succ w ih =>
    intro i j hi hj
    have hP : 0 < 10 ^ w := Nat.pow_pos (by norm_num)
    have hmul : 10 ^ (w + 1) = 10 * 10 ^ w := by
      rw [Nat.pow_succ, Nat.mul_comm]
    have hdi : i / 10 ^ w < 10 := by
      rw [Nat.div_lt_iff_lt_mul hP]
      omega
    have hdj : j / 10 ^ w < 10 := by
      rw [Nat.div_lt_iff_lt_mul hP]
      omega
    simp only [pad_digits, chars_le]
    by_cases h1 : i / 10 ^ w < j / 10 ^ w
    · rw [if_pos ((digit_char_lt_iff _ _ hdi hdj).mpr h1)]
      simp only [true_iff]
      by_contra hij
      push_neg at hij
      have := Nat.div_le_div_right (c := 10 ^ w) (Nat.le_of_lt hij)
      omega
    · have hc1 : ¬ (digit_char (i / 10 ^ w)).val.toNat < (digit_char (j / 10 ^ w)).val.toNat := by
        rw [digit_char_lt_iff _ _ hdi hdj]
        exact h1
      rw [if_neg hc1]
      by_cases h2 : j / 10 ^ w < i / 10 ^ w
      · rw [if_pos ((digit_char_lt_iff _ _ hdj hdi).mpr h2)]
        simp only [Bool.false_eq_true, false_iff]
        intro hij
        have := Nat.div_le_div_right (c := 10 ^ w) hij
        omega
      · have hc2 : ¬ (digit_char (j / 10 ^ w)).val.toNat < (digit_char (i / 10 ^ w)).val.toNat := by
          rw [digit_char_lt_iff _ _ hdj hdi]
          exact h2
        rw [if_neg hc2]
        have heq : i / 10 ^ w = j / 10 ^ w := by omega
        have hi2 : i % 10 ^ w < 10 ^ w := Nat.mod_lt _ hP
        have hj2 : j % 10 ^ w < 10 ^ w := Nat.mod_lt _ hP
        rw [ih _ _ hi2 hj2]
        have hdm1 := Nat.div_add_mod i (10 ^ w)
        have hdm2 := Nat.div_add_mod j (10 ^ w)
        rw [heq] at hdm1
        omega

/-- Lexicographic comparison cancels a common prefix. -/
theorem chars_le_append_left :
    ∀ (c a b : List Char), chars_le (c ++ a) (c ++ b) = chars_le a b := by
  intro c
  induction c with
  | nil => intro a b; rfl
  | cons x cs ih =>
    intro a b
    simp only [List.cons_append, chars_le]
    have hx : ¬ x.val.toNat < x.val.toNat := Nat.lt_irrefl _
    rw [if_neg hx, if_neg hx]
    exact ih a b

/-- Conventionally-formed checkpoint directory names order lexicographically
exactly as their indices. -/
theorem ckpt_name_le_iff (i j : Nat) (hi : i < 10 ^ 6) (hj : j < 10 ^ 6) :
    StrLe (ckpt_dir_name i) (ckpt_dir_name j) ↔ i ≤ j := by
  have hdata : ∀ k : Nat, (ckpt_dir_name k).data = "checkpoint_".data ++ pad_digits 6 k :=
    fun k => String.data_append _ _
  rw [StrLe, str_le, hdata, hdata, chars_le_append_left]
  exact chars_le_pad_iff 6 i j hi hj

/-- A name-sorted list of conventionally-formed checkpoint names is the
image of a sorted index list. -/
theorem sorted_names_indices :
    ∀ l : List String, List.Sorted StrLe l →
      (∀ n ∈ l, ∃ i, i < 10 ^ 6 ∧ n = ckpt_dir_name i) →
      ∃ idxs : List Nat, List.Sorted (· ≤ ·) idxs ∧ (∀ i ∈ idxs, i < 10 ^ 6) ∧
        l = idxs.map ckpt_dir_name := by
  intro l
  induction l with
  | nil => intro _ _; exact ⟨[], by simp, by simp, rfl⟩
  | cons n l ih =>
    intro hs hwf
    obtain ⟨i, hi, hn⟩ := hwf n (by simp)
    obtain ⟨idxs, hsort, hbound, hmap⟩ :=
      ih (List.sorted_cons.mp hs).2 (fun m hm => hwf m (by simp [hm]))
    refine ⟨i :: idxs, ?_, ?_, by simp [hn, hmap]⟩
    · rw [List.sorted_cons]
      refine ⟨?_, hsort⟩
      intro j hj
      have hjl : ckpt_dir_name j ∈ l := by
        rw [hmap]
        exact List.mem_map_of_mem _ hj
      have hle := (List.sorted_cons.mp hs).1 _ hjl
      rw [hn] at hle
      exact (ckpt_name_le_iff i j hi (hbound j hj)).mp hle
    · intro j hj
      rcases List.mem_cons.mp hj with rfl | hj
      · exact hi
      · exact hbound j hj

/-- C2 (amended): for a successful restore from a root whose checkpoint
directories follow the fixed-width naming convention, the checkpoint-record
sequence is absent when zero checkpoint directories exist, and for N >= 1 it
has length exactly N (one record per directory, never an omission) and is
ordered by ascending checkpoint index. -/
theorem from_path_checkpoint_count
    (d : TrialDir) (r : RunResult)
    (h : from_path d = .ok r)
    (hwf : ∀ n ∈ scan_checkpoint_dirs d.entries, ∃ i, i < 10 ^ 6 ∧ n = ckpt_dir_name i) :
    ((d.entries.filter (fun e => e.is_dir && starts_with_checkpoint e.base_name)).length = 0 →
        r.best_checkpoints = none) ∧
    (∀ l, r.best_checkpoints = some l →
        l.length =
          (d.entries.filter (fun e => e.is_dir && starts_with_checkpoint e.base_name)).length ∧
        ∃ idxs : List Nat, List.Sorted (· ≤ ·) idxs ∧
          l.map Prod.fst = idxs.map (fun i => join_path d.fs_path (ckpt_dir_name i))) := by
  obtain ⟨hex, df, err, hdf, herr, hcase⟩ := from_path_ok_elim d r h
  have hlenscan : (scan_checkpoint_dirs d.entries).length =
      (d.entries.filter (fun e => e.is_dir && starts_with_checkpoint e.base_name)).length := by
    have hperm : (scan_checkpoint_dirs d.entries).Perm
        ((d.entries.filter (fun e => e.is_dir && starts_with_checkpoint e.base_name)).map
          (fun e => e.base_name)) := List.perm_insertionSort _ _
    rw [hperm.length_eq, List.length_map]
  rcases hcase with ⟨hscan, hr⟩ | ⟨hscan, hcol, hr⟩
  · subst hr
    exact ⟨fun _ => rfl, fun l hl => absurd hl (by simp)⟩
  · subst hr
    constructor
    · intro hlen0
      exact absurd (List.length_eq_zero.mp (hlenscan.trans hlen0)) hscan
    · intro l hl
      simp only [Option.some.injEq] at hl
      subst hl
      constructor
      · simp [List.length_zip, hlenscan]
      · have hfst : (((scan_checkpoint_dirs d.entries).map (fun nm => join_path d.fs_path nm)).zip
            ((scan_checkpoint_dirs d.entries).map (fun nm => snapshot_for df nm))).map Prod.fst =
            (scan_checkpoint_dirs d.entries).map (fun nm => join_path d.fs_path nm) :=
          List.map_fst_zip _ _ (by simp)
        have hsorted : List.Sorted StrLe (scan_checkpoint_dirs d.entries) :=
          List.sorted_insertionSort _ _
        obtain ⟨idxs, hsort, hbound, hmap⟩ :=
          sorted_names_indices (scan_checkpoint_dirs d.entries) hsorted hwf
        refine ⟨idxs, hsort, ?_⟩
        rw [hfst, hmap, List.map_map]
        rfl

/-- C2 (witness): a root with two out-of-order checkpoint directories
restores to two records sorted by ascending index. -/
theorem from_path_checkpoint_count_witness :
    (from_path trial_two = .ok trial_two_result ∧
     (∀ n ∈ scan_checkpoint_dirs trial_two.entries, ∃ i, i < 10 ^ 6 ∧ n = ckpt_dir_name i)) ∧
    (((trial_two.entries.filter
        (fun e => e.is_dir && starts_with_checkpoint e.base_name)).length = 0 →
        trial_two_result.best_checkpoints = none) ∧
     (∀ l, trial_two_result.best_checkpoints = some l →
        l.length = (trial_two.entries.filter
          (fun e => e.is_dir && starts_with_checkpoint e.base_name)).length ∧
        ∃ idxs : List Nat, List.Sorted (· ≤ ·) idxs ∧
          l.map Prod.fst = idxs.map (fun i => join_path trial_two.fs_path (ckpt_dir_name i)))) :=
  ⟨⟨by decide, by
      intro n hn
      have hs : scan_checkpoint_dirs trial_two.entries =
          ["checkpoint_000001", "checkpoint_000002"] := by decide
      rw [hs] at hn
      rcases List.mem_cons.mp hn with rfl | hn
      · exact ⟨1, by decide, by decide⟩
      · rcases List.mem_cons.mp hn with rfl | hn
        · exact ⟨2, by decide, by decide⟩
        · simp at hn⟩,
   from_path_checkpoint_count trial_two trial_two_result (by decide) (by
      intro n hn
      have hs : scan_checkpoint_dirs trial_two.entries =
          ["checkpoint_000001", "checkpoint_000002"] := by decide
      rw [hs] at hn
      rcases List.mem_cons.mp hn with rfl | hn
      · exact ⟨1, by decide, by decide⟩
      · rcases List.mem_cons.mp hn with rfl | hn
        · exact ⟨2, by decide, by decide⟩
        · simp at hn)⟩


end RayResult
